import Mathlib

/-!
Verification of the conversation-history subsystem and the completion-request
flow of the GroqAPILLM node (`src/nodes/groq_api_llm.py`).

The node file itself is embedded directly from the Python source. The helpers
it imports from `..utils` (`ChatHistoryManager`, `make_api_request`,
`get_prompt_content`) are not part of the provided sources, so they are
modelled from the specification, as marked in their doc comments.
-/

set_option autoImplicit false

namespace GroqNode

/-- A chat role, as used in the message dictionaries of the Python source. -/
inductive Role where
  | system
  | user
  | assistant
deriving DecidableEq, Repr

/-- One chat message: the Python dict `{"role": ..., "content": ...}`. -/
structure Msg where
  role : Role
  content : String
deriving DecidableEq, Repr

/-- The identifier-to-message-list mapping owned by `ChatHistoryManager`,
modelled as an association list (insertion-ordered, no duplicate keys are
ever created by the operations below). -/
abbrev ChatStore : Type := List (String × List Msg)

/-- Modelled from the spec: `get_history(id)` returns the conversation's
messages, or the empty sequence if the identifier is unknown (never fails). -/
def get_history : ChatStore → String → List Msg
  | [], _ => []
  | (k, v) :: rest, id => if k = id then v else get_history rest id

/-- Store a (full) message list under an identifier: dictionary assignment
`store[id] = msgs` — replaces the entry if present, otherwise adds it. -/
def set_history : ChatStore → String → List Msg → ChatStore
  | [], id, msgs => [(id, msgs)]
  | (k, v) :: rest, id, msgs =>
    if k = id then (k, msgs) :: rest else (k, v) :: set_history rest id msgs

/-- Modelled from the spec: `update_history(id, messages)` replaces the stored
sequence for `id` with the given sequence, overwriting in full. -/
def update_history (st : ChatStore) (id : String) (msgs : List Msg) : ChatStore :=
  set_history st id msgs

/-- Modelled from the spec: `get_all_conversations()` returns the mapping of
all known conversations. -/
def get_all_conversations (st : ChatStore) : ChatStore := st

/-- The length of the longest identifier currently in the store. -/
def keyLenMax : ChatStore → Nat
  | [] => 0
  | (k, _) :: rest => max k.length (keyLenMax rest)

/-- Modelled from the spec: `create_new_conversation` must generate a fresh,
collision-free identifier. The concrete scheme is unspecified; we generate an
identifier strictly longer than every existing key, which can collide with
nothing in the store. -/
def freshId (st : ChatStore) : String :=
  String.mk (List.replicate (keyLenMax st + 1) 'c')

/-- Modelled from the spec: `create_new_conversation()` generates a fresh,
collision-free identifier, registers an empty conversation under it, and
returns the identifier. -/
def create_new_conversation (st : ChatStore) : String × ChatStore :=
  (freshId st, set_history st (freshId st) [])

/-- The preset-name-to-system-message mapping loaded from the prompt files. -/
abbrev PromptOptions : Type := List (String × String)

/-- Modelled from the spec: `get_prompt_content` resolves a preset name to its
pre-authored system-message text via the external file-backed mapping; the
core only consumes the resolved string. -/
def get_prompt_content : PromptOptions → String → String
  | [], _ => ""
  | (k, v) :: rest, name => if k = name then v else get_prompt_content rest name

/- The completion requester (`make_api_request` from `..utils.api_utils`). -/

/-- One simulated network attempt: whether the HTTP round trip succeeded (2xx
and parseable), the generated text it would yield, and its status code. The
network is an oracle mapping the attempt number to its outcome. -/
structure AttemptOutcome where
  ok : Bool
  text : String
  status : String
deriving DecidableEq, Repr

/-- The normalized result triple `(response text, success, status code)` of
`make_api_request`, extended with the number of attempts actually made so the
retry policy is observable. -/
structure ApiResult where
  text : String
  success : Bool
  status : String
  attempts : Nat
deriving DecidableEq, Repr

/-- Attempt loop of `make_api_request`, starting at attempt index `i` with a
budget of remaining attempts: stops at the first success, otherwise retries
until the budget is exhausted and reports the last failure. -/
def apiAttempts (net : Nat → AttemptOutcome) : Nat → Nat → ApiResult
  | _, 0 => ⟨"", false, "", 0⟩
  | i, 1 => ⟨(net i).text, (net i).ok, (net i).status, 1⟩
  | i, n + 2 =>
    if (net i).ok then ⟨(net i).text, true, (net i).status, 1⟩
    else
      let r := apiAttempts net (i + 1) (n + 1)
      ⟨r.text, r.success, r.status, r.attempts + 1⟩

/-- Modelled from the spec: `make_api_request(data, headers, url, max_retries)`
retries on failure up to `max_retries` attempts total, no retry on success;
on success returns the generated text, success=true and the status code; on
exhaustion returns the last failure's status and success=false. -/
def make_api_request (net : Nat → AttemptOutcome) (max_retries : Nat) : ApiResult :=
  apiAttempts net 0 max_retries

/- The node inputs and the completion-request flow
(`GroqAPILLM.process_completion_request`, src/nodes/groq_api_llm.py). -/

/-- The preset sentinel `GroqAPILLM.DEFAULT_PROMPT`. -/
def DEFAULT_PROMPT : String := "Use [system_message] and [user_input]"

/-- The required inputs of the node, as declared in `INPUT_TYPES`. The two
float parameters (`temperature`, `top_p`) are only ever passed through to the
payload, never computed with, so they are carried as opaque integers. -/
structure Inputs where
  model : String
  preset : String
  system_message : String
  user_input : String
  temperature : Int
  max_tokens : Nat
  top_p : Int
  seed : Nat
  max_retries : Nat
  stop : String
  json_mode : Bool
  conversation_id : String
deriving DecidableEq, Repr

/-- A JSON value as it appears in the request payload dict. -/
inductive JVal where
  | s : String → JVal
  | i : Int → JVal
  | n : Nat → JVal
  | msgs : List Msg → JVal
deriving DecidableEq, Repr

/-- The request payload `data` built at lines 120-131 of the source: a dict
with the six fixed keys, plus `stop` only when the stop string is truthy
(non-empty). Keys are listed in insertion order. -/
def buildData (inp : Inputs) (messages : List Msg) : List (String × JVal) :=
  [("model", JVal.s inp.model),
   ("messages", JVal.msgs messages),
   ("temperature", JVal.i inp.temperature),
   ("max_tokens", JVal.n inp.max_tokens),
   ("top_p", JVal.i inp.top_p),
   ("seed", JVal.n inp.seed)]
  ++ (if inp.stop = "" then [] else [("stop", JVal.s inp.stop)])

/-- Key lookup in a payload dict. -/
def lookupKey : List (String × JVal) → String → Option JVal
  | [], _ => none
  | (k, v) :: rest, key => if k = key then some v else lookupKey rest key

/-- The system message actually used (lines 99-102): the `system_message`
input when the preset is the default sentinel, otherwise the preset's content
resolved via `get_prompt_content`. -/
def resolvedSystem (po : PromptOptions) (inp : Inputs) : String :=
  if inp.preset = DEFAULT_PROMPT then inp.system_message
  else get_prompt_content po inp.preset

/-- The conversation identifier the request operates on (lines 107-108): the
input identifier, or a freshly generated one when the input is empty. -/
def effectiveCid (st : ChatStore) (inp : Inputs) : String :=
  if inp.conversation_id = "" then freshId st else inp.conversation_id

/-- The store right after the `create_new_conversation` step (line 108): when
the input identifier is empty a fresh empty conversation is registered,
otherwise the store is untouched. -/
def preStore (st : ChatStore) (inp : Inputs) : ChatStore :=
  if inp.conversation_id = "" then set_history st (freshId st) [] else st

/-- The history `get_history` hands to the node before any message of this
turn is appended (line 111). -/
def histBefore (st : ChatStore) (inp : Inputs) : List Msg :=
  get_history (preStore st inp) (effectiveCid st inp)

/-- The conversation history after the appends of lines 113-118: a system
message is prepended only when the history was empty, then the user turn is
appended. This is the `messages` list the payload carries. -/
def histWithUser (st : ChatStore) (po : PromptOptions) (inp : Inputs) : List Msg :=
  (if histBefore st inp = [] then [⟨Role.system, resolvedSystem po inp⟩]
   else histBefore st inp)
  ++ [⟨Role.user, inp.user_input⟩]

/-- The payload this invocation sends to the endpoint (line 120 builds it from
the history that already includes the new user turn). -/
def sentData (st : ChatStore) (po : PromptOptions) (inp : Inputs) :
    List (String × JVal) :=
  buildData inp (histWithUser st po inp)

/-- The store as it stands when the request goes out: the in-place appends of
lines 113-118 have already written the (possibly system-prefixed) history with
the new user turn through to the stored list. -/
def storeAtSend (st : ChatStore) (po : PromptOptions) (inp : Inputs) : ChatStore :=
  set_history (preStore st inp) (effectiveCid st inp) (histWithUser st po inp)

/-- The five outputs of the node: `(api_response, success, status_code,
conversation_id, chat_history)`; the serialized chat history is carried as
the store snapshot it serializes. -/
structure Outputs where
  api_response : String
  success : Bool
  status_code : String
  conversation_id : String
  chat_history : ChatStore
deriving DecidableEq, Repr

/-- `GroqAPILLM.process_completion_request` (lines 93-142), with the manager
state passed explicitly. The list `get_history` returns is the stored list
itself, so the in-place appends of lines 113-118 write through to the store
before the request is sent (the spec requires the user turn to be persisted
before the call); on success the assistant turn is appended and
`update_history` rewrites the entry in full. -/
def process_completion_request (st : ChatStore) (po : PromptOptions)
    (inp : Inputs) (net : Nat → AttemptOutcome) : Outputs × ChatStore :=
  let cid := effectiveCid st inp
  let hist := histWithUser st po inp
  let st2 := storeAtSend st po inp
  let r := make_api_request net inp.max_retries
  let st3 :=
    if r.success then update_history st2 cid (hist ++ [⟨Role.assistant, r.text⟩])
    else st2
  (⟨r.text, r.success, r.status, cid, get_all_conversations st3⟩, st3)

/-- Whether a message list is empty or starts with a system message. -/
def headIsSystem : List Msg → Bool
  | [] => true
  | m :: _ => m.role == Role.system

/-- The data-model invariant: every non-empty stored conversation starts with
a system message. -/
def storeInv (st : ChatStore) : Bool :=
  st.all fun p => headIsSystem p.2

/- Concrete fixtures used by the witness theorems. -/

/-- A request for a brand-new conversation (empty `conversation_id`),
default-prompt preset. -/
def inputsNew : Inputs :=
  ⟨"llama3-8b-8192", DEFAULT_PROMPT, "be brief", "hello", 1, 16, 1, 0, 1, "", false, ""⟩

/-- A request addressed to the identifier `chat1`, stop string set. -/
def inputsNamed : Inputs :=
  ⟨"llama3-8b-8192", DEFAULT_PROMPT, "be brief", "hello", 1, 16, 1, 0, 2, "END", false, "chat1"⟩

/-- A request addressed to `chat1` with a non-default preset. -/
def inputsPreset : Inputs :=
  ⟨"llama3-8b-8192", "pirate", "be brief", "hello", 1, 16, 1, 0, 1, "", false, "chat1"⟩

/-- A preset table resolving `pirate`. -/
def promptsFix : PromptOptions := [("pirate", "talk like a pirate")]

/-- A store already holding one well-formed conversation under `chat1`. -/
def storeSeeded : ChatStore :=
  [("chat1", [⟨Role.system, "s0"⟩, ⟨Role.user, "u0"⟩, ⟨Role.assistant, "a0"⟩])]

/-- A network that succeeds on every attempt. -/
def netOk : Nat → AttemptOutcome := fun _ => ⟨true, "reply", "200"⟩

/-- A network that fails on every attempt. -/
def netDown : Nat → AttemptOutcome := fun _ => ⟨false, "error", "500"⟩

/-- A network that fails on the first attempt and succeeds afterwards. -/
def netFlaky : Nat → AttemptOutcome :=
  fun j => if j = 0 then ⟨false, "error", "503"⟩ else ⟨true, "recovered", "200"⟩

/- Basic store lemmas. -/

theorem get_set_self (st : ChatStore) (id : String) (msgs : List Msg) :
    get_history (set_history st id msgs) id = msgs := by
  induction st with
  | nil => simp [get_history, set_history]
  | cons p rest ih =>
    obtain ⟨k, v⟩ := p
    by_cases hk : k = id
    · simp [get_history, set_history, hk]
    · simp [get_history, set_history, hk, ih]

theorem get_set_other (st : ChatStore) (id id' : String) (msgs : List Msg)
    (h : id' ≠ id) :
    get_history (set_history st id msgs) id' = get_history st id' := by
  induction st with
  | nil => simp only [set_history, get_history, if_neg (Ne.symm h)]
  | cons p rest ih =>
    obtain ⟨k, v⟩ := p
    by_cases hk : k = id
    · subst hk
      simp only [set_history, if_pos rfl, get_history, if_neg (Ne.symm h)]
    · simp only [set_history, if_neg hk, get_history]
      by_cases hk' : k = id'
      · simp only [if_pos hk']
      · simp only [if_neg hk', ih]

theorem set_set_self (st : ChatStore) (id : String) (v w : List Msg) :
    set_history (set_history st id v) id w = set_history st id w := by
  induction st with
  | nil => simp [set_history]
  | cons p rest ih =>
    obtain ⟨k, u⟩ := p
    by_cases hk : k = id
    · simp [set_history, hk]
    · simp [set_history, hk, ih]

theorem key_le_keyLenMax (st : ChatStore) (p : String × List Msg)
    (hp : p ∈ st) : p.1.length ≤ keyLenMax st := by
  induction st with
  | nil => cases hp
  | cons q rest ih =>
    rcases List.mem_cons.mp hp with hp | hp
    · simp [hp, keyLenMax, Nat.le_max_left]
    · exact le_trans (ih hp) (by simp [keyLenMax, Nat.le_max_right])

theorem freshId_length (st : ChatStore) :
    (freshId st).length = keyLenMax st + 1 := by
  simp [freshId, String.length]

theorem freshId_not_key (st : ChatStore) (p : String × List Msg)
    (hp : p ∈ st) : p.1 ≠ freshId st := by
  intro he
  have hlen : p.1.length = keyLenMax st + 1 := by rw [he, freshId_length]
  have := key_le_keyLenMax st p hp
  omega

theorem get_history_of_no_key (st : ChatStore) (id : String)
    (h : ∀ p ∈ st, (p : String × List Msg).1 ≠ id) :
    get_history st id = [] := by
  induction st with
  | nil => rfl
  | cons p rest ih =>
    obtain ⟨k, v⟩ := p
    have hk : k ≠ id := h (k, v) (List.mem_cons_self _ _)
    simp only [get_history, if_neg hk]
    exact ih fun q hq => h q (List.mem_cons_of_mem _ hq)

theorem get_freshId (st : ChatStore) : get_history st (freshId st) = [] :=
  get_history_of_no_key st (freshId st) fun p hp => freshId_not_key st p hp

/- Characterization lemmas for the completion-request flow. -/

theorem process_conversation_id (st : ChatStore) (po : PromptOptions)
    (inp : Inputs) (net : Nat → AttemptOutcome) :
    (process_completion_request st po inp net).1.conversation_id
      = effectiveCid st inp := rfl

theorem process_success_eq (st : ChatStore) (po : PromptOptions)
    (inp : Inputs) (net : Nat → AttemptOutcome) :
    (process_completion_request st po inp net).1.success
      = (make_api_request net inp.max_retries).success := rfl

theorem process_response_eq (st : ChatStore) (po : PromptOptions)
    (inp : Inputs) (net : Nat → AttemptOutcome) :
    (process_completion_request st po inp net).1.api_response
      = (make_api_request net inp.max_retries).text := rfl

theorem process_store_success (st : ChatStore) (po : PromptOptions)
    (inp : Inputs) (net : Nat → AttemptOutcome)
    (h : (make_api_request net inp.max_retries).success = true) :
    (process_completion_request st po inp net).2
      = set_history (preStore st inp) (effectiveCid st inp)
          (histWithUser st po inp
            ++ [⟨Role.assistant, (make_api_request net inp.max_retries).text⟩]) := by
  simp only [process_completion_request, h, if_true, update_history, storeAtSend]
  exact set_set_self ..

theorem process_store_failure (st : ChatStore) (po : PromptOptions)
    (inp : Inputs) (net : Nat → AttemptOutcome)
    (h : (make_api_request net inp.max_retries).success = false) :
    (process_completion_request st po inp net).2 = storeAtSend st po inp := by
  simp only [process_completion_request, h]
  rfl

theorem histBefore_of_new (st : ChatStore) (inp : Inputs)
    (h : inp.conversation_id = "" ∨ get_history st inp.conversation_id = []) :
    histBefore st inp = [] := by
  by_cases hc : inp.conversation_id = ""
  · simp only [histBefore, preStore, effectiveCid, if_pos hc]
    exact get_set_self ..
  · rcases h with h | h
    · exact absurd h hc
    · simp only [histBefore, preStore, effectiveCid, if_neg hc]
      exact h

theorem get_storeAtSend (st : ChatStore) (po : PromptOptions) (inp : Inputs) :
    get_history (storeAtSend st po inp) (effectiveCid st inp)
      = histWithUser st po inp := get_set_self ..

theorem get_preStore_other (st : ChatStore) (inp : Inputs) (id : String)
    (h : id ≠ effectiveCid st inp) :
    get_history (preStore st inp) id = get_history st id := by
  by_cases hc : inp.conversation_id = ""
  · simp only [preStore, if_pos hc]
    exact get_set_other st (freshId st) id [] (by
      simpa only [effectiveCid, if_pos hc] using h)
  · simp only [preStore, if_neg hc]

/- The first-message-is-system invariant. -/

theorem storeInv_get (st : ChatStore) (id : String) (hinv : storeInv st = true) :
    headIsSystem (get_history st id) = true := by
  induction st with
  | nil => rfl
  | cons p rest ih =>
    obtain ⟨k, v⟩ := p
    rw [storeInv, List.all_cons, Bool.and_eq_true] at hinv
    by_cases hk : k = id
    · simpa only [get_history, if_pos hk] using hinv.1
    · simp only [get_history, if_neg hk]
      exact ih (by simpa [storeInv] using hinv.2)

theorem storeInv_set (st : ChatStore) (id : String) (v : List Msg)
    (hinv : storeInv st = true) (hv : headIsSystem v = true) :
    storeInv (set_history st id v) = true := by
  induction st with
  | nil => simpa [set_history, storeInv]
  | cons p rest ih =>
    obtain ⟨k, u⟩ := p
    rw [storeInv, List.all_cons, Bool.and_eq_true] at hinv
    by_cases hk : k = id
    · simp only [set_history, if_pos hk, storeInv, List.all_cons, Bool.and_eq_true]
      exact ⟨hv, hinv.2⟩
    · simp only [set_history, if_neg hk, storeInv, List.all_cons, Bool.and_eq_true]
      exact ⟨hinv.1, ih hinv.2⟩

theorem headIsSystem_append_left (xs ys : List Msg) (h : xs ≠ []) :
    headIsSystem (xs ++ ys) = headIsSystem xs := by
  cases xs with
  | nil => exact absurd rfl h
  | cons m t => rfl

theorem storeInv_preStore (st : ChatStore) (inp : Inputs)
    (hinv : storeInv st = true) : storeInv (preStore st inp) = true := by
  by_cases hc : inp.conversation_id = ""
  · simp only [preStore, if_pos hc]
    exact storeInv_set st (freshId st) [] hinv rfl
  · simpa only [preStore, if_neg hc]

theorem headIsSystem_histWithUser (st : ChatStore) (po : PromptOptions)
    (inp : Inputs) (hinv : storeInv st = true) :
    headIsSystem (histWithUser st po inp) = true := by
  by_cases hb : histBefore st inp = []
  · simp [histWithUser, hb, headIsSystem]
  · rw [histWithUser, if_neg hb, headIsSystem_append_left _ _ hb]
    exact storeInv_get (preStore st inp) (effectiveCid st inp)
      (storeInv_preStore st inp hinv)

theorem histWithUser_ne_nil (st : ChatStore) (po : PromptOptions) (inp : Inputs) :
    histWithUser st po inp ≠ [] := by
  rw [histWithUser]
  exact List.append_ne_nil_of_right_ne_nil _ (by simp)

theorem storeInv_process (st : ChatStore) (po : PromptOptions)
    (inp : Inputs) (net : Nat → AttemptOutcome) (hinv : storeInv st = true) :
    storeInv (process_completion_request st po inp net).2 = true := by
  have hpre := storeInv_preStore st inp hinv
  have hh := headIsSystem_histWithUser st po inp hinv
  cases hs : (make_api_request net inp.max_retries).success with
  | true =>
    rw [process_store_success st po inp net hs]
    refine storeInv_set _ _ _ hpre ?_
    rw [headIsSystem_append_left _ _ (histWithUser_ne_nil st po inp)]
    exact hh
  | false =>
    rw [process_store_failure st po inp net hs, storeAtSend]
    exact storeInv_set _ _ _ hpre hh

/- Behaviour of the retry loop. -/

theorem apiAttempts_le (net : Nat → AttemptOutcome) :
    ∀ n i, (apiAttempts net i n).attempts ≤ n := by
  intro n
  induction n with
  | zero => intro i; simp [apiAttempts]
  | succ m ih =>
    intro i
    cases m with
    | zero => simp [apiAttempts]
    | succ k =>
      by_cases hok : (net i).ok
      · simp [apiAttempts, hok]
      · simpa [apiAttempts, hok] using Nat.succ_le_succ (ih (i + 1))

theorem apiAttempts_all_fail (net : Nat → AttemptOutcome) :
    ∀ n i, 1 ≤ n → (∀ j, j < n → (net (i + j)).ok = false) →
      apiAttempts net i n
        = ⟨(net (i + n - 1)).text, false, (net (i + n - 1)).status, n⟩ := by
  intro n
  induction n with
  | zero => intro i h; omega
  | succ m ih =>
    intro i _ hfail
    cases m with
    | zero =>
      have h0 : (net i).ok = false := by simpa using hfail 0 (by omega)
      simp [apiAttempts, h0]
    | succ k =>
      have h0 : (net i).ok = false := by simpa using hfail 0 (by omega)
      have hrec := ih (i + 1) (by omega) (fun j hj => by
        have := hfail (j + 1) (by omega)
        simpa [Nat.add_assoc, Nat.add_comm 1 j] using this)
      simp only [apiAttempts, h0, Bool.false_eq_true, if_false, hrec]
      have harg : i + 1 + (k + 1) - 1 = i + (k + 1 + 1) - 1 := by omega
      rw [harg]

theorem apiAttempts_first_ok (net : Nat → AttemptOutcome) (i n : Nat)
    (hok : (net i).ok = true) (hn : 1 ≤ n) :
    apiAttempts net i n = ⟨(net i).text, true, (net i).status, 1⟩ := by
  cases n with
  | zero => omega
  | succ m =>
    cases m with
    | zero => simp [apiAttempts, hok]
    | succ k => simp [apiAttempts, hok]

/- The claims. -/

/-- Claim C1: for a new conversation (empty or absent history for the
conversation identifier), one invocation of `process_completion_request`
whose underlying request succeeds leaves the stored history for that
identifier equal to exactly three messages [system, user, assistant] in that
order, with the system message inserted exactly once. -/
theorem claim1_new_conversation_three_messages (st : ChatStore)
    (po : PromptOptions) (inp : Inputs) (net : Nat → AttemptOutcome)
    (hnew : inp.conversation_id = "" ∨ get_history st inp.conversation_id = [])
    (hs : (process_completion_request st po inp net).1.success = true) :
    get_history (process_completion_request st po inp net).2
        (process_completion_request st po inp net).1.conversation_id
      = [⟨Role.system, resolvedSystem po inp⟩,
         ⟨Role.user, inp.user_input⟩,
         ⟨Role.assistant, (process_completion_request st po inp net).1.api_response⟩] := by
  rw [process_success_eq] at hs
  have hb := histBefore_of_new st inp hnew
  rw [process_conversation_id, process_store_success st po inp net hs, get_set_self,
      process_response_eq]
  simp [histWithUser, hb]

theorem claim1_witness :
    inputsNew.conversation_id = "" ∧
    (process_completion_request [] [] inputsNew netOk).1.success = true ∧
    get_history (process_completion_request [] [] inputsNew netOk).2
        (process_completion_request [] [] inputsNew netOk).1.conversation_id
      = [⟨Role.system, resolvedSystem [] inputsNew⟩,
         ⟨Role.user, inputsNew.user_input⟩,
         ⟨Role.assistant, (process_completion_request [] [] inputsNew netOk).1.api_response⟩] :=
  ⟨rfl, by decide,
   claim1_new_conversation_three_messages [] [] inputsNew netOk (Or.inl rfl) (by decide)⟩

/-- Claim C2, counterexample to the claim as stated: a failed invocation does
change the stored conversation history — the user turn (and, for a new
conversation, the system turn) has been persisted even though the request
failed. -/
theorem claim2_counterexample :
    (process_completion_request [] [] inputsNamed netDown).1.success = false
    ∧ (process_completion_request [] [] inputsNamed netDown).2 ≠ ([] : ChatStore)
    ∧ get_history (process_completion_request [] [] inputsNamed netDown).2 "chat1"
        ≠ get_history ([] : ChatStore) "chat1" := by
  refine ⟨by decide, by decide, by decide⟩

/-- Claim C2, amended: on a failed invocation no assistant message is appended
and `update_history` is not invoked — the final store is exactly the store as
it stood when the request was sent, whose entry for the conversation is the
pre-call history extended by the user turn (and a system turn if the
conversation was new) but by no assistant turn. -/
theorem claim2_failure_no_assistant (st : ChatStore) (po : PromptOptions)
    (inp : Inputs) (net : Nat → AttemptOutcome)
    (hf : (process_completion_request st po inp net).1.success = false) :
    (process_completion_request st po inp net).2 = storeAtSend st po inp
    ∧ get_history (process_completion_request st po inp net).2
        (process_completion_request st po inp net).1.conversation_id
      = histWithUser st po inp := by
  rw [process_success_eq] at hf
  refine ⟨process_store_failure st po inp net hf, ?_⟩
  rw [process_conversation_id, process_store_failure st po inp net hf]
  exact get_storeAtSend ..

theorem claim2_witness :
    (process_completion_request [] [] inputsNamed netDown).1.success = false ∧
    (process_completion_request [] [] inputsNamed netDown).2
        = storeAtSend [] [] inputsNamed ∧
    get_history (process_completion_request [] [] inputsNamed netDown).2
        (process_completion_request [] [] inputsNamed netDown).1.conversation_id
      = histWithUser [] [] inputsNamed :=
  ⟨by decide,
   (claim2_failure_no_assistant [] [] inputsNamed netDown (by decide)).1,
   (claim2_failure_no_assistant [] [] inputsNamed netDown (by decide)).2⟩

/-- Claim C3: the user message is persisted in the stored conversation history
already when the request goes out, so on a failed invocation the stored
history still ends with the user turn — history is never lost on failure. -/
theorem claim3_user_turn_persisted (st : ChatStore) (po : PromptOptions)
    (inp : Inputs) (net : Nat → AttemptOutcome)
    (hf : (process_completion_request st po inp net).1.success = false) :
    (get_history (storeAtSend st po inp) (effectiveCid st inp)).getLast?
        = some ⟨Role.user, inp.user_input⟩
    ∧ (process_completion_request st po inp net).2 = storeAtSend st po inp
    ∧ (get_history (process_completion_request st po inp net).2
        (process_completion_request st po inp net).1.conversation_id).getLast?
        = some ⟨Role.user, inp.user_input⟩ := by
  rw [process_success_eq] at hf
  have hlast : (histWithUser st po inp).getLast? = some ⟨Role.user, inp.user_input⟩ := by
    rw [histWithUser]
    simp
  refine ⟨?_, process_store_failure st po inp net hf, ?_⟩
  · rw [get_storeAtSend]
    exact hlast
  · rw [process_conversation_id, process_store_failure st po inp net hf, get_storeAtSend]
    exact hlast

theorem claim3_witness :
    (process_completion_request [] [] inputsNamed netDown).1.success = false ∧
    ((get_history (storeAtSend [] [] inputsNamed) (effectiveCid [] inputsNamed)).getLast?
        = some ⟨Role.user, inputsNamed.user_input⟩
     ∧ (process_completion_request [] [] inputsNamed netDown).2
        = storeAtSend [] [] inputsNamed
     ∧ (get_history (process_completion_request [] [] inputsNamed netDown).2
        (process_completion_request [] [] inputsNamed netDown).1.conversation_id).getLast?
        = some ⟨Role.user, inputsNamed.user_input⟩) :=
  ⟨by decide, claim3_user_turn_persisted [] [] inputsNamed netDown (by decide)⟩

/-- Claim C4: when the stored history for the identifier is non-empty, no new
system message is inserted — the turn is appended to the existing history
unchanged — and the invariant that the first message of every non-empty
stored conversation has role system is preserved by the invocation. -/
theorem claim4_no_system_reinsertion (st : ChatStore) (po : PromptOptions)
    (inp : Inputs) (net : Nat → AttemptOutcome)
    (hinv : storeInv st = true) (hne : histBefore st inp ≠ []) :
    histWithUser st po inp = histBefore st inp ++ [⟨Role.user, inp.user_input⟩]
    ∧ storeInv (process_completion_request st po inp net).2 = true :=
  ⟨by rw [histWithUser, if_neg hne], storeInv_process st po inp net hinv⟩

theorem claim4_witness :
    storeInv storeSeeded = true ∧
    histBefore storeSeeded inputsNamed ≠ [] ∧
    (histWithUser storeSeeded [] inputsNamed
        = histBefore storeSeeded inputsNamed ++ [⟨Role.user, inputsNamed.user_input⟩]
     ∧ storeInv (process_completion_request storeSeeded [] inputsNamed netOk).2 = true) :=
  ⟨by decide, by decide,
   claim4_no_system_reinsertion storeSeeded [] inputsNamed netOk (by decide) (by decide)⟩

/-- Claim C5: the request body contains exactly the keys model, messages (the
full conversation history including the new user turn), temperature,
max_tokens, top_p and seed, plus the key stop if and only if the stop input
string is non-empty, in which case its value is the input string verbatim. -/
theorem claim5_payload_shape (st : ChatStore) (po : PromptOptions) (inp : Inputs) :
    (sentData st po inp).map Prod.fst
      = ["model", "messages", "temperature", "max_tokens", "top_p", "seed"]
          ++ (if inp.stop = "" then [] else ["stop"])
    ∧ lookupKey (sentData st po inp) "messages"
        = some (JVal.msgs (histWithUser st po inp))
    ∧ (inp.stop = "" → lookupKey (sentData st po inp) "stop" = none)
    ∧ (inp.stop ≠ "" → lookupKey (sentData st po inp) "stop" = some (JVal.s inp.stop)) := by
  by_cases hstop : inp.stop = "" <;>
    simp [sentData, buildData, lookupKey, hstop]

theorem claim5_witness :
    inputsNamed.stop ≠ "" ∧
    lookupKey (sentData storeSeeded [] inputsNamed) "stop"
        = some (JVal.s inputsNamed.stop) ∧
    lookupKey (sentData storeSeeded [] inputsNamed) "messages"
        = some (JVal.msgs (histWithUser storeSeeded [] inputsNamed)) :=
  ⟨by decide,
   (claim5_payload_shape storeSeeded [] inputsNamed).2.2.2 (by decide),
   (claim5_payload_shape storeSeeded [] inputsNamed).2.1⟩

/-- Claim C6: when the conversation_id input is non-empty the returned
conversation id equals it; when it is empty a newly generated id (absent from
the store) is returned, and on success that id resolves via `get_history` to
the stored non-empty history. -/
theorem claim6_conversation_id_behaviour (st : ChatStore) (po : PromptOptions)
    (inp : Inputs) (net : Nat → AttemptOutcome) :
    (inp.conversation_id ≠ "" →
      (process_completion_request st po inp net).1.conversation_id
        = inp.conversation_id)
    ∧ (inp.conversation_id = "" →
        (process_completion_request st po inp net).1.conversation_id = freshId st
        ∧ get_history st (freshId st) = []
        ∧ ((process_completion_request st po inp net).1.success = true →
            get_history (process_completion_request st po inp net).2
              (process_completion_request st po inp net).1.conversation_id ≠ [])) := by
  constructor
  · intro h
    rw [process_conversation_id, effectiveCid, if_neg h]
  · intro h
    refine ⟨by rw [process_conversation_id, effectiveCid, if_pos h], get_freshId st, ?_⟩
    intro hs
    rw [process_success_eq] at hs
    rw [process_conversation_id, process_store_success st po inp net hs, get_set_self]
    exact List.append_ne_nil_of_right_ne_nil _ (by simp)

theorem claim6_witness :
    (process_completion_request [] [] inputsNew netOk).1.conversation_id = freshId []
    ∧ get_history (process_completion_request [] [] inputsNew netOk).2
        (process_completion_request [] [] inputsNew netOk).1.conversation_id ≠ [] :=
  ⟨((claim6_conversation_id_behaviour [] [] inputsNew netOk).2 rfl).1,
   ((claim6_conversation_id_behaviour [] [] inputsNew netOk).2 rfl).2.2 (by decide)⟩

/-- Claim C7: the request helper never makes more than max_retries attempts;
under max_retries consecutive failures it makes exactly max_retries attempts
and returns success=false with the last failure's status; under a failure
followed by a success it makes exactly 2 attempts and returns success=true
with the second attempt's content. -/
theorem claim7_retry_policy (net : Nat → AttemptOutcome) (n : Nat) :
    (make_api_request net n).attempts ≤ n
    ∧ (1 ≤ n → (∀ j, j < n → (net j).ok = false) →
        make_api_request net n
          = ⟨(net (n - 1)).text, false, (net (n - 1)).status, n⟩)
    ∧ ((net 0).ok = false → (net 1).ok = true → 2 ≤ n →
        make_api_request net n = ⟨(net 1).text, true, (net 1).status, 2⟩) := by
  refine ⟨apiAttempts_le net n 0, ?_, ?_⟩
  · intro hn hfail
    have h := apiAttempts_all_fail net n 0 hn (fun j hj => by simpa using hfail j hj)
    simpa [make_api_request] using h
  · intro h0 h1 hn
    obtain ⟨m, rfl⟩ : ∃ m, n = m + 2 := ⟨n - 2, by omega⟩
    rw [make_api_request]
    simp only [apiAttempts, h0, Bool.false_eq_true, if_false]
    rw [apiAttempts_first_ok net 1 (m + 1) h1 (by omega)]

theorem claim7_witness :
    make_api_request netFlaky 3 = ⟨"recovered", true, "200", 2⟩
    ∧ (make_api_request netDown 3).attempts ≤ 3
    ∧ make_api_request netDown 3 = ⟨"error", false, "500", 3⟩ :=
  ⟨(claim7_retry_policy netFlaky 3).2.2 rfl rfl (by omega),
   (claim7_retry_policy netDown 3).1,
   (claim7_retry_policy netDown 3).2.1 (by omega) (fun j hj => rfl)⟩

/-- Claim C8: json_mode has no effect — two invocations differing only in the
json_mode input construct the same request payload and return the same five
outputs and the same final store. -/
theorem claim8_json_mode_no_effect (st : ChatStore) (po : PromptOptions)
    (inp : Inputs) (net : Nat → AttemptOutcome) (b : Bool) :
    sentData st po { inp with json_mode := b } = sentData st po inp
    ∧ process_completion_request st po { inp with json_mode := b } net
        = process_completion_request st po inp net := by
  obtain ⟨m, p, sm, u, t, mt, tp, sd, mr, stp, jm, cid⟩ := inp
  exact ⟨rfl, rfl⟩

/-- Claim C9: when the preset input is not the default sentinel, the system
message actually used is resolved from the preset mapping and the
system_message input has no effect — two invocations differing only in
system_message construct the same payload and return the same results. -/
theorem claim9_system_message_ignored (st : ChatStore) (po : PromptOptions)
    (inp : Inputs) (net : Nat → AttemptOutcome) (s1 s2 : String)
    (hp : inp.preset ≠ DEFAULT_PROMPT) :
    resolvedSystem po { inp with system_message := s1 }
        = get_prompt_content po inp.preset
    ∧ sentData st po { inp with system_message := s1 }
        = sentData st po { inp with system_message := s2 }
    ∧ process_completion_request st po { inp with system_message := s1 } net
        = process_completion_request st po { inp with system_message := s2 } net := by
  obtain ⟨m, p, sm, u, t, mt, tp, sd, mr, stp, jm, cid⟩ := inp
  have hp' : ¬(p = DEFAULT_PROMPT) := hp
  have hres : ∀ s : String,
      resolvedSystem po ⟨m, p, s, u, t, mt, tp, sd, mr, stp, jm, cid⟩
        = get_prompt_content po p := by
    intro s
    simp only [resolvedSystem]
    rw [if_neg hp']
  refine ⟨hres s1, ?_, ?_⟩
  · simp only [sentData, buildData, histWithUser, histBefore, preStore, effectiveCid, hres]
  · simp only [process_completion_request, storeAtSend, histWithUser, histBefore,
               preStore, effectiveCid, hres]

theorem claim9_witness :
    inputsPreset.preset ≠ DEFAULT_PROMPT ∧
    (resolvedSystem promptsFix { inputsPreset with system_message := "AAA" }
        = get_prompt_content promptsFix inputsPreset.preset
     ∧ sentData storeSeeded promptsFix { inputsPreset with system_message := "AAA" }
        = sentData storeSeeded promptsFix { inputsPreset with system_message := "BBB" }
     ∧ process_completion_request storeSeeded promptsFix
          { inputsPreset with system_message := "AAA" } netOk
        = process_completion_request storeSeeded promptsFix
          { inputsPreset with system_message := "BBB" } netOk) :=
  ⟨by decide,
   claim9_system_message_ignored storeSeeded promptsFix inputsPreset netOk
     "AAA" "BBB" (by decide)⟩

/-- Claim C10: an invocation mutates at most the conversation keyed by the
(possibly freshly generated) id it operates on — the stored message sequence
of every other identifier is unchanged. -/
theorem claim10_frame (st : ChatStore) (po : PromptOptions)
    (inp : Inputs) (net : Nat → AttemptOutcome) (id : String)
    (hid : id ≠ (process_completion_request st po inp net).1.conversation_id) :
    get_history (process_completion_request st po inp net).2 id
      = get_history st id := by
  rw [process_conversation_id] at hid
  have hother : ∀ v, get_history
      (set_history (preStore st inp) (effectiveCid st inp) v) id = get_history st id := by
    intro v
    rw [get_set_other _ _ _ _ hid]
    exact get_preStore_other st inp id hid
  cases hs : (make_api_request net inp.max_retries).success with
  | true =>
    rw [process_store_success st po inp net hs]
    exact hother _
  | false =>
    rw [process_store_failure st po inp net hs, storeAtSend]
    exact hother _

theorem claim10_witness :
    "chat1" ≠ (process_completion_request storeSeeded [] inputsNew netOk).1.conversation_id
    ∧ get_history (process_completion_request storeSeeded [] inputsNew netOk).2 "chat1"
        = get_history storeSeeded "chat1" :=
  ⟨by decide,
   claim10_frame storeSeeded [] inputsNew netOk "chat1" (by decide)⟩

end GroqNode
